import Mathlib

/-!
# Verification of the goflow connection-wiring core (`graph_connect.go`)

This file shallowly embeds the connection-wiring engine of the goflow
library: address parsing, port resolution through the process registry,
channel allocation/reuse (fan-in and fan-out), endpoint attachment with
direction/assignability validation, and the shared-channel reference
counter.  Reflection-based Go code is modelled explicitly: a `reflect.Value`
holding a channel becomes a `ChanVal` (static channel type plus an optional
heap identity), an invalid `reflect.Value` becomes `none`, a process
becomes an association list of named slots, and the panics that
`reflect.Value.Set` / `reflect.MakeChan` can raise become an explicit
`panic` outcome of the wiring functions.
-/

set_option autoImplicit false

namespace GoFlow

/-- Element-type tags for channel element types (`reflect.Type.Elem`).
Two distinct tags are enough to express type (mis)match. -/
inductive Ty where
  | int
  | str
  deriving DecidableEq

/-- `reflect.ChanDir`: `RecvDir = 1`, `SendDir = 2`, `BothDir = 3`. -/
inductive ChanDir where
  | recv
  | send
  | both
  deriving DecidableEq

/-- The numeric bits of a `reflect.ChanDir` value. -/
def ChanDir.bits : ChanDir → Nat
  | .recv => 1
  | .send => 2
  | .both => 3

/-- The static type of a channel value: direction and element type. -/
structure ChanType where
  dir : ChanDir
  elem : Ty
  deriving DecidableEq

/-- A `reflect.Value` of channel kind: its static type together with the
identity of the runtime channel it references (`none` = nil channel).
`reflect.Value.Pointer` is modelled by the identity. -/
structure ChanVal where
  ty : ChanType
  ref : Option Nat
  deriving DecidableEq

/-- `reflect.Value.Pointer()` of a channel value; a nil channel yields 0. -/
def cvPtr (c : ChanVal) : Nat := c.ref.getD 0

/-- The static type of a struct field: either a channel type or something
that is not a channel (`reflect.Kind ≠ Chan`). -/
inductive FieldType where
  | chanF (dir : ChanDir) (elem : Ty)
  | other
  deriving DecidableEq

/-- A port slot: a named struct field of a process (or an exported boundary
port of a nested network).  `canSet` models `reflect.Value.CanSet` of the
field, `ref` the channel currently stored in it (`none` = nil). -/
structure Slot where
  ftype : FieldType
  canSet : Bool
  ref : Option Nat
  deriving DecidableEq

/-- A process registered in the graph: either a leaf process (a struct with
named fields) or a nested sub-network with exported out/in boundary ports.
`settable` models whether `reflect.ValueOf(proc)` dereferences to a settable
value (i.e. the process was registered as a pointer). -/
inductive Proc where
  | leaf (settable : Bool) (fields : List (String × Slot))
  | net (settable : Bool) (outPorts inPorts : List (String × Slot))
  deriving DecidableEq

/-- Whether the registered process value is settable. -/
def Proc.settable : Proc → Bool
  | .leaf s _ => s
  | .net s _ _ => s

/-- `address` from `graph_connect.go`: a full port accessor. -/
structure address where
  proc : String
  port : String
  key : String
  deriving DecidableEq

/-- `connection` from `graph_connect.go`. -/
structure connection where
  src : address
  tgt : address
  channel : ChanVal
  buffer : Int
  deriving DecidableEq

/-- The graph state relevant to the wiring core: the process registry, the
recorded connections, the channel-listeners reference-count table
(`chanListenersCount`, keyed by channel pointer), the heap of allocated
channels (identity to capacity, recording `reflect.MakeChan` results), a
fresh-identity counter for allocation, and the configured buffer size. -/
structure Graph where
  procs : List (String × Proc)
  connections : List connection
  chanListenersCount : List (Nat × Nat)
  chans : List (Nat × Int)
  nextChanId : Nat
  confBufferSize : Int
  deriving DecidableEq

/-! ## Address parsing (`parseAddress`) -/

/-- The loop body of `parseAddress`: Go iterates `for i, r := range port`,
updating `keyPos`/`n.port` at every `[` and capturing `key = port[keyPos:i]`
at every `]`.  `full` is the whole port text, `rest` the characters not yet
scanned, `i` the current index. -/
def paGo (full : List Char) : List Char → Nat → Nat → List Char → List Char →
    List Char × List Char
  | [], _, _, pn, key => (pn, key)
  | r :: rest, i, keyPos, pn, key =>
    paGo full rest (i + 1)
      (if r = '[' then i + 1 else keyPos)
      (if r = '[' then full.take i else pn)
      (if r = ']' then (full.take i).drop keyPos else key)

/-- `parseAddress` from `graph_connect.go`: unfolds a string port name into
parts, including the hashmap key. -/
def parseAddress (proc port : String) : address :=
  let cs := port.toList
  let r := paGo cs cs 0 0 cs []
  if r.2 = [] then { proc := proc, port := r.1.asString, key := "" }
  else { proc := proc, port := r.1.asString, key := r.2.asString }

/-! ## Errors and outcomes -/

/-- The error values produced by the wiring core.  `wrap0` is the
`connect: %w` wrapping, `wrap` the `connect 'proc.port': %w` wrapping. -/
inductive GoErr where
  | procNotFound (name : String)
  | procNotSettable (name : String)
  | portNotFound (proc port : String)
  | notAChannel
  | wrongDir (dir : ChanDir)
  | notAssignable
  | wrap0 (e : GoErr)
  | wrap (proc port : String) (e : GoErr)
  deriving DecidableEq

/-- The run-time panics reachable in the wiring core: `reflect.Value.Set`
with a value not assignable to the target type, and `reflect.MakeChan` with
a negative buffer size. -/
inductive PanicKind where
  | setNotAssignable
  | makeChanNegative
  deriving DecidableEq

/-- Outcome of a `Connect`/`ConnectBuf` call: normal return (`ok`/`err`,
carrying the graph state at return) or an uncontrolled termination. -/
inductive COutcome where
  | ok (g : Graph)
  | err (g : Graph) (e : GoErr)
  | panic (g : Graph) (k : PanicKind)
  deriving DecidableEq

/-- The graph state carried by an outcome. -/
def COutcome.graph : COutcome → Graph
  | .ok g => g
  | .err g _ => g
  | .panic g _ => g

def COutcome.isOk : COutcome → Bool
  | .ok _ => true
  | _ => false

def COutcome.isPanic : COutcome → Bool
  | .panic _ _ => true
  | _ => false

/-! ## Registry and slot access -/

/-- Which collection of a process a resolved slot lives in. -/
inductive Sec where
  | fld
  | outP
  | inP
  deriving DecidableEq

/-- A resolved port slot: the mutable reference `getProcPort` returns,
identified by its location in the registry. -/
structure SlotRef where
  procName : String
  sec : Sec
  name : String
  deriving DecidableEq

/-- First-match association-list lookup (Go map read / `FieldByName`). -/
def alookup {α : Type} : List (String × α) → String → Option α
  | [], _ => none
  | kv :: rest, k => if kv.1 = k then some kv.2 else alookup rest k

/-- Read the slot a process holds at a given location. -/
def Proc.readSlot : Proc → Sec → String → Option Slot
  | .leaf _ fs, .fld, nm => alookup fs nm
  | .net _ os _, .outP, nm => alookup os nm
  | .net _ _ is', .inP, nm => alookup is' nm
  | _, _, _ => none

/-- Replace (in place) the channel stored in one named slot. -/
def setSlotRef (r : Option Nat) : List (String × Slot) → String →
    List (String × Slot)
  | [], _ => []
  | kv :: rest, nm =>
    if kv.1 = nm then (kv.1, { kv.2 with ref := r }) :: rest
    else kv :: setSlotRef r rest nm

/-- Write a channel into one slot of a process. -/
def Proc.writeSlot : Proc → Sec → String → Option Nat → Proc
  | .leaf s fs, .fld, nm, r => .leaf s (setSlotRef r fs nm)
  | .net s os is', .outP, nm, r => .net s (setSlotRef r os nm) is'
  | .net s os is', .inP, nm, r => .net s os (setSlotRef r is' nm)
  | p, _, _, _ => p

/-- Read a resolved slot from the graph.  `getProcPort` only hands out
references to existing slots, so the default is never read through them. -/
def Graph.readSlot (g : Graph) (ref : SlotRef) : Slot :=
  ((alookup g.procs ref.procName).bind
    (fun p => p.readSlot ref.sec ref.name)).getD ⟨.other, false, none⟩

/-- `port.Set(ch)` writing through a resolved slot reference. -/
def Graph.writeSlot (g : Graph) (ref : SlotRef) (r : Option Nat) : Graph :=
  { g with
    procs := g.procs.map fun kv =>
      if kv.1 = ref.procName then (kv.1, kv.2.writeSlot ref.sec ref.name r)
      else kv }

/-! ## Port resolution (`getProcPort`) -/

/-- Modelled from the spec: `Graph.getOutPort` is defined in another file of
this repository (not under `src/`); per the spec it resolves a nested
sub-network's exported outbound boundary port by name, failing when the name
is absent.  The sub-network is represented by its exported port list. -/
def getOutPort (outs : List (String × Slot)) (name : String) : Option Slot :=
  alookup outs name

/-- Modelled from the spec: `Graph.getInPort` is defined in another file of
this repository (not under `src/`); per the spec it resolves a nested
sub-network's exported inbound boundary port by name, failing when the name
is absent.  The sub-network is represented by its exported port list. -/
def getInPort (ins : List (String × Slot)) (name : String) : Option Slot :=
  alookup ins name

/-- `getProcPort` from `graph_connect.go`: finds an assignable port field in
one of the subprocesses.  The returned `SlotRef` is the mutable reference to
the resolved field. -/
def Graph.getProcPort (n : Graph) (procName portName : String)
    (dir : ChanDir) : Except GoErr SlotRef :=
  match alookup n.procs procName with
  | none => .error (.procNotFound procName)
  | some proc =>
    if proc.settable = false then .error (.procNotSettable procName)
    else
      match proc with
      | .net _ outs ins =>
        if dir = .send then
          match getOutPort outs portName with
          | some _ => .ok ⟨procName, .outP, portName⟩
          | none => .error (.portNotFound procName portName)
        else
          match getInPort ins portName with
          | some _ => .ok ⟨procName, .inP, portName⟩
          | none => .error (.portNotFound procName portName)
      | .leaf _ fs =>
        match alookup fs portName with
        | some _ => .ok ⟨procName, .fld, portName⟩
        | none => .error (.portNotFound procName portName)

/-! ## Validation and attachment -/

/-- `validateChanDir` from `graph_connect.go`. -/
def validateChanDir (portType : FieldType) (dir : ChanDir) :
    Except GoErr Unit :=
  match portType with
  | .other => .error .notAChannel
  | .chanF d _ =>
    if d.bits &&& dir.bits = 0 then .error (.wrongDir dir) else .ok ()

/-- `validateCanSet` from `graph_connect.go`. -/
def validateCanSet (s : Slot) : Except GoErr Unit :=
  if s.canSet = false then .error .notAssignable else .ok ()

/-- Whether a `reflect.Value` is valid and holds a non-nil channel
(`ch.IsValid() && !ch.IsNil()`); `none` is the invalid value. -/
def validNonNil : Option ChanVal → Bool
  | some cv => cv.ref.isSome
  | none => false

/-- Reading a port slot as a channel `reflect.Value`: the value carries the
field's static channel type.  Only reached after `validateChanDir`, so the
`other` case is unreachable (Go would panic on `Elem()` of a non-channel). -/
def slotChanVal (s : Slot) : ChanVal :=
  match s.ftype with
  | .chanF d e => ⟨⟨d, e⟩, s.ref⟩
  | .other => ⟨⟨.both, .int⟩, s.ref⟩

/-- The element type of a channel-typed slot (`port.Type().Elem()`); only
reached after `validateChanDir`. -/
def slotElem (s : Slot) : Ty :=
  match s.ftype with
  | .chanF _ e => e
  | .other => .int

/-- Result of `selectOrMakeChan`: a channel value (with possibly extended
heap) or the `reflect.MakeChan` panic on a negative buffer size. -/
inductive SRes where
  | ok (cv : ChanVal) (g : Graph)
  | panic (k : PanicKind) (g : Graph)

/-- The graph state carried by a `selectOrMakeChan` result. -/
def SRes.graph : SRes → Graph
  | .ok _ g => g
  | .panic _ g => g

/-- `selectOrMakeChan` from `graph_connect.go`: keep `new` if it is a valid
non-nil channel; otherwise adopt the channel already stored in the port
slot when there is one; otherwise allocate a fresh bidirectional channel of
the slot's element type and the requested buffer size. -/
def selectOrMakeChan (new : Option ChanVal) (s : Slot) (bufSize : Int)
    (g : Graph) : SRes :=
  if validNonNil new = false then
    if (slotChanVal s).ref.isSome then .ok (slotChanVal s) g
    else if bufSize < 0 then .panic .makeChanNegative g
    else
      .ok ⟨⟨.both, slotElem s⟩, some g.nextChanId⟩
        { g with
          chans := g.chans ++ [(g.nextChanId, bufSize)],
          nextChanId := g.nextChanId + 1 }
  else .ok (new.getD ⟨⟨.both, slotElem s⟩, none⟩) g

/-- Go assignability of a channel value to a channel-typed location:
identical element types, and either the value is bidirectional or the
directions are identical.  `reflect.Value.Set` panics otherwise. -/
def assignable (v f : ChanType) : Bool :=
  v.elem = f.elem && (v.dir = .both || v.dir = f.dir)

/-- Result of `attachPort`: the attached channel and updated graph, an
error, or a reflection panic.  Each case carries the graph state. -/
inductive ARes where
  | ok (ch : ChanVal) (g : Graph)
  | err (e : GoErr) (g : Graph)
  | panic (k : PanicKind) (g : Graph)
  deriving DecidableEq

/-- The graph state carried by an `attachPort` result. -/
def ARes.graph : ARes → Graph
  | .ok _ g => g
  | .err _ g => g
  | .panic _ g => g

/-- `attachPort` from `graph_connect.go`: validate direction and
assignability of the slot, select or allocate the channel, and `Set` it
into the slot (which panics when the channel's type is not assignable to
the field's type). -/
def attachPort (g : Graph) (ref : SlotRef) (dir : ChanDir)
    (ch : Option ChanVal) (bufSize : Int) : ARes :=
  match validateChanDir (g.readSlot ref).ftype dir with
  | .error e => .err e g
  | .ok _ =>
    match validateCanSet (g.readSlot ref) with
    | .error e => .err e g
    | .ok _ =>
      match selectOrMakeChan ch (g.readSlot ref) bufSize g with
      | .panic k g1 => .panic k g1
      | .ok cv g1 =>
        match (g.readSlot ref).ftype with
        | .chanF d e =>
          if assignable cv.ty ⟨d, e⟩ = true then .ok cv (g1.writeSlot ref cv.ref)
          else .panic .setNotAssignable g1
        | .other => .panic .setNotAssignable g1

/-! ## Channel reuse and reference counting -/

/-- The scan inside `findExistingChan`: first connection whose source
(`SendDir`) or target (otherwise) address equals the argument. -/
def findChanIn : List connection → address → ChanDir → Option ChanVal
  | [], _, _ => none
  | conn :: rest, addr, dir =>
    if (if dir = .send then conn.src else conn.tgt) = addr then
      some conn.channel
    else findChanIn rest addr dir

/-- `findExistingChan` from `graph_connect.go`: returns the channel already
attached to the address among recorded connections, or the invalid value. -/
def Graph.findExistingChan (n : Graph) (addr : address) (dir : ChanDir) :
    Option ChanVal :=
  findChanIn n.connections addr dir

/-- Reference-count table read; absent keys read as 0 (Go map default). -/
def lookupCnt : List (Nat × Nat) → Nat → Nat
  | [], _ => 0
  | kv :: rest, p => if kv.1 = p then kv.2 else lookupCnt rest p

/-- Reference-count table write (replace or append). -/
def setCnt : List (Nat × Nat) → Nat → Nat → List (Nat × Nat)
  | [], p, c => [(p, c)]
  | kv :: rest, p, c =>
    if kv.1 = p then (p, c) :: rest else kv :: setCnt rest p c

/-- `incChanListenersCount` from `graph_connect.go`. -/
def Graph.incChanListenersCount (n : Graph) (c : ChanVal) : Graph :=
  { n with
    chanListenersCount :=
      setCnt n.chanListenersCount (cvPtr c)
        (lookupCnt n.chanListenersCount (cvPtr c) + 1) }

/-- `decChanListenersCount` from `graph_connect.go`: returns whether the
count has reached 0, and the updated graph.  A count already at 0 reports
`true` without updating the table. -/
def Graph.decChanListenersCount (n : Graph) (c : ChanVal) : Bool × Graph :=
  if lookupCnt n.chanListenersCount (cvPtr c) = 0 then (true, n)
  else
    (decide (lookupCnt n.chanListenersCount (cvPtr c) - 1 = 0),
      { n with chanListenersCount :=
          (setCnt n.chanListenersCount (cvPtr c)
            (lookupCnt n.chanListenersCount (cvPtr c) - 1)) })

/-! ## The connector (`Connect` / `ConnectBuf`) -/

/-- The channel-discovery phase of `ConnectBuf`: try fan-out reuse on the
sender address; failing that, try fan-in reuse on the receiver address and,
on success, immediately increment the found channel's listener count;
failing both, mark the channel as new.  Returns the channel value found (or
the fan-in scan result, possibly invalid/nil), the `isNewChan` flag, and
the possibly updated graph. -/
def fanPhase (n : Graph) (sendAddr recvAddr : address) :
    Option ChanVal × Bool × Graph :=
  if validNonNil (n.findExistingChan sendAddr .send) = true then
    (n.findExistingChan sendAddr .send, false, n)
  else if validNonNil (n.findExistingChan recvAddr .recv) = true then
    (n.findExistingChan recvAddr .recv, false,
      match n.findExistingChan recvAddr .recv with
      | some cv => n.incChanListenersCount cv
      | none => n)
  else (n.findExistingChan recvAddr .recv, true, n)

/-- Append a connection record to the graph. -/
def addConn (g : Graph) (c : connection) : Graph :=
  { g with connections := g.connections ++ [c] }

/-- `ConnectBuf` from `graph_connect.go`: connects a sender to a receiver
using a channel with a buffer of the given size. -/
def ConnectBuf (n : Graph) (senderName senderPort receiverName receiverPort :
    String) (bufferSize : Int) : COutcome :=
  match n.getProcPort senderName senderPort .send with
  | .error e => .err n (.wrap0 e)
  | .ok sendRef =>
    match n.getProcPort receiverName receiverPort .recv with
    | .error e => .err n (.wrap0 e)
    | .ok recvRef =>
      match fanPhase n (parseAddress senderName senderPort)
          (parseAddress receiverName receiverPort) with
      | (ch, isNewChan, n1) =>
        match attachPort n1 sendRef .send ch bufferSize with
        | .err e g => .err g (.wrap senderName senderPort e)
        | .panic k g => .panic g k
        | .ok ch2 g2 =>
          match attachPort g2 recvRef .recv (some ch2) bufferSize with
          | .err e g => .err g (.wrap receiverName receiverPort e)
          | .panic k g => .panic g k
          | .ok _ g3 =>
            .ok (addConn
              (if isNewChan = true then g3.incChanListenersCount ch2 else g3)
              ⟨parseAddress senderName senderPort,
                parseAddress receiverName receiverPort, ch2, bufferSize⟩)

/-- `Connect` from `graph_connect.go`: `ConnectBuf` with the graph's
configured buffer size. -/
def Connect (n : Graph) (senderName senderPort receiverName receiverPort :
    String) : COutcome :=
  ConnectBuf n senderName senderPort receiverName receiverPort
    n.confBufferSize

/-! ## Derived definitions: decrement sequences, the parse-spec
characterization, type homogeneity, and concrete registries -/

/-- The list of boolean results of `k` successive
`decChanListenersCount` calls on the same channel, threading the graph. -/

def decResults (g : Graph) (c : ChanVal) : Nat → List Bool
  | 0 => []
  | k + 1 =>
    (g.decChanListenersCount c).1 ::
      decResults (g.decChanListenersCount c).2 c k

/-- Split a list at the last occurrence of `c`: `some (a, b)` with
`l = a ++ c :: b` and `c ∉ b`, or `none` when `c` does not occur. -/

def breakLast (c : Char) : List Char → Option (List Char × List Char)
  | [] => none
  | x :: xs =>
    match breakLast c xs with
    | some (a, b) => some (x :: a, b)
    | none => if x = c then some ([], xs) else none

/-- The split-point value (`keyPos`) after scanning a prefix. -/

def kpSpec (pre : List Char) : Nat :=
  match breakLast '[' pre with
  | some (a, _) => a.length + 1
  | none => 0

/-- The port-name value after scanning a prefix of the full text. -/

def pnSpec (full pre : List Char) : List Char :=
  match breakLast '[' pre with
  | some (a, _) => a
  | none => full

/-- The key value after scanning a prefix: at the last `]` the substring
since the `[` most recently preceding it (or the start of text). -/

def keySpec (pre : List Char) : List Char :=
  match breakLast ']' pre with
  | none => []
  | some (a, _) =>
    match breakLast '[' a with
    | some (_, b) => b
    | none => a

/-- The closed-form description of `parseAddress` (the amended rule): the
port name is everything before the *last* `[` (the whole text when there is
none), and the key is the substring between the `[` most recently preceding
the last `]` (or the start of text) and that `]` (empty when there is no
`]`). -/

def parseAddressSpec (proc port : String) : address :=
  { proc := proc,
    port := (pnSpec port.toList port.toList).asString,
    key := (keySpec port.toList).asString }

/-- The immutable part of a slot: field type and settability (unchanged by
`Set`, which only replaces the stored channel). -/

def slotShape (s : Slot) : FieldType × Bool := (s.ftype, s.canSet)

/-- The slot is a bidirectional channel field of element type `τ`, or not a
channel at all. -/

def SlotBoth (τ : Ty) (s : Slot) : Bool :=
  match s.ftype with
  | .chanF d e => decide (d = ChanDir.both) && decide (e = τ)
  | .other => true

/-- All slots of the process satisfy `SlotBoth`. -/

def ProcBoth (τ : Ty) : Proc → Bool
  | .leaf _ fs => fs.all fun kv => SlotBoth τ kv.2
  | .net _ os ips =>
    (os.all fun kv => SlotBoth τ kv.2) && (ips.all fun kv => SlotBoth τ kv.2)

/-- Type homogeneity of a graph: all registered port fields are
bidirectional channels of element type `τ` (or non-channels), and all
recorded connection channels are bidirectional of element type `τ`. -/

def GraphHomo (τ : Ty) (g : Graph) : Bool :=
  (g.procs.all fun kv => ProcBoth τ kv.2) &&
    (g.connections.all fun c => decide (c.channel.ty = ⟨.both, τ⟩))

/-- A three-process registry in which `A.Out` and `B.In` carry `int`
elements while `S.In` carries `str` elements. -/

def gMix : Graph :=
  ⟨[("A", .leaf true [("Out", ⟨.chanF .both .int, true, none⟩)]),
    ("B", .leaf true [("In", ⟨.chanF .both .int, true, none⟩)]),
    ("S", .leaf true [("In", ⟨.chanF .both .str, true, none⟩)])],
   [], [], [], 0, 0⟩

/-- A registry with fan-out/fan-in partners (`A`, `B`, `C`, `D`), a
receive-only sender port (`R.Out`), a non-settable process (`V`) and a
nested sub-network (`N`). -/

def gW : Graph :=
  ⟨[("A", .leaf true [("Out", ⟨.chanF .both .int, true, none⟩)]),
    ("B", .leaf true [("In", ⟨.chanF .both .int, true, none⟩)]),
    ("C", .leaf true [("In", ⟨.chanF .both .int, true, none⟩)]),
    ("D", .leaf true [("Out", ⟨.chanF .both .int, true, none⟩)]),
    ("R", .leaf true [("Out", ⟨.chanF .recv .int, true, none⟩)]),
    ("V", .leaf false []),
    ("N", .net true [("O", ⟨.chanF .both .int, true, none⟩)]
      [("I", ⟨.chanF .both .int, true, none⟩)])],
   [], [], [], 0, 0⟩

/-- `gW` after `A.Out→B.In` with buffer 10. -/

def gW1 : Graph := (ConnectBuf gW "A" "Out" "B" "In" 10).graph

/-- `gW1` after the fan-out connect `A.Out→C.In`. -/

def gW2 : Graph := (ConnectBuf gW1 "A" "Out" "C" "In" 0).graph

/-- `gW1` after the fan-in connect `D.Out→B.In`. -/

def gW3 : Graph := (ConnectBuf gW1 "D" "Out" "B" "In" 0).graph

/-- The channel allocated by the first connect on `gW`. -/

def cvW : ChanVal := ⟨⟨.both, .int⟩, some 0⟩

/-- A graph whose count table maps channel pointer 7 to 3. -/

def gCnt : Graph := ⟨[], [], [(7, 3)], [], 0, 0⟩

/-- A channel value with pointer 7. -/

def cvCnt : ChanVal := ⟨⟨.both, .int⟩, some 7⟩

/-- A type-homogeneous two-process registry. -/

def gHomoW : Graph :=
  ⟨[("A", .leaf true [("Out", ⟨.chanF .both .int, true, none⟩)]),
    ("B", .leaf true [("In", ⟨.chanF .both .int, true, none⟩)])],
   [], [], [], 0, 0⟩

/-! ## Basic state-preservation lemmas -/

@[simp] theorem writeSlot_connections (g : Graph) (ref : SlotRef)
    (r : Option Nat) : (g.writeSlot ref r).connections = g.connections := rfl

@[simp] theorem writeSlot_cnt (g : Graph) (ref : SlotRef) (r : Option Nat) :
    (g.writeSlot ref r).chanListenersCount = g.chanListenersCount := rfl

@[simp] theorem writeSlot_chans (g : Graph) (ref : SlotRef) (r : Option Nat) :
    (g.writeSlot ref r).chans = g.chans := rfl

@[simp] theorem inc_connections (g : Graph) (c : ChanVal) :
    (g.incChanListenersCount c).connections = g.connections := rfl

@[simp] theorem inc_procs (g : Graph) (c : ChanVal) :
    (g.incChanListenersCount c).procs = g.procs := rfl

@[simp] theorem inc_chans (g : Graph) (c : ChanVal) :
    (g.incChanListenersCount c).chans = g.chans := rfl

@[simp] theorem inc_cnt (g : Graph) (c : ChanVal) :
    (g.incChanListenersCount c).chanListenersCount =
      setCnt g.chanListenersCount (cvPtr c)
        (lookupCnt g.chanListenersCount (cvPtr c) + 1) := rfl

@[simp] theorem addConn_connections (g : Graph) (c : connection) :
    (addConn g c).connections = g.connections ++ [c] := rfl

@[simp] theorem addConn_cnt (g : Graph) (c : connection) :
    (addConn g c).chanListenersCount = g.chanListenersCount := rfl

@[simp] theorem addConn_procs (g : Graph) (c : connection) :
    (addConn g c).procs = g.procs := rfl

@[simp] theorem addConn_chans (g : Graph) (c : connection) :
    (addConn g c).chans = g.chans := rfl

theorem selOrMake_graph_connections (ch : Option ChanVal) (s : Slot)
    (b : Int) (g : Graph) :
    ((selectOrMakeChan ch s b g).graph).connections = g.connections := by
  unfold selectOrMakeChan
  split <;> [skip; rfl]
  split <;> [rfl; skip]
  split <;> rfl

theorem selOrMake_graph_cnt (ch : Option ChanVal) (s : Slot) (b : Int)
    (g : Graph) :
    ((selectOrMakeChan ch s b g).graph).chanListenersCount =
      g.chanListenersCount := by
  unfold selectOrMakeChan
  split <;> [skip; rfl]
  split <;> [rfl; skip]
  split <;> rfl

theorem selOrMake_graph_procs (ch : Option ChanVal) (s : Slot) (b : Int)
    (g : Graph) :
    ((selectOrMakeChan ch s b g).graph).procs = g.procs := by
  unfold selectOrMakeChan
  split <;> [skip; rfl]
  split <;> [rfl; skip]
  split <;> rfl

theorem selOrMake_ok_isSome (ch : Option ChanVal) (s : Slot) (b : Int)
    (g g1 : Graph) (cv : ChanVal)
    (h : selectOrMakeChan ch s b g = .ok cv g1) : cv.ref.isSome = true := by
  unfold selectOrMakeChan at h
  split at h
  · split at h
    · next hs => cases h; exact hs
    · split at h
      · cases h
      · cases h; rfl
  · next hv =>
    cases ch with
    | none => simp [validNonNil] at hv
    | some cv0 =>
      cases h
      simp only [validNonNil] at hv
      simpa [Option.isSome_iff_ne_none] using hv

theorem selOrMake_some_valid (cv0 : ChanVal) (s : Slot) (b : Int) (g : Graph)
    (h : cv0.ref.isSome = true) :
    selectOrMakeChan (some cv0) s b g = .ok cv0 g := by
  unfold selectOrMakeChan
  simp [validNonNil, h]

/-! ## `attachPort` lemmas -/

theorem attachPort_graph_connections (g : Graph) (ref : SlotRef)
    (dir : ChanDir) (ch : Option ChanVal) (b : Int) :
    ((attachPort g ref dir ch b).graph).connections = g.connections := by
  unfold attachPort
  split
  · rfl
  · split
    · rfl
    · split
      · next heq =>
        have := selOrMake_graph_connections ch (g.readSlot ref) b g
        rw [heq] at this
        exact this
      · next cv g1 heq =>
        have := selOrMake_graph_connections ch (g.readSlot ref) b g
        rw [heq] at this
        split
        · split
          · simpa [ARes.graph] using this
          · simpa [ARes.graph] using this
        · simpa [ARes.graph] using this

theorem attachPort_graph_cnt (g : Graph) (ref : SlotRef) (dir : ChanDir)
    (ch : Option ChanVal) (b : Int) :
    ((attachPort g ref dir ch b).graph).chanListenersCount =
      g.chanListenersCount := by
  unfold attachPort
  split
  · rfl
  · split
    · rfl
    · split
      · next heq =>
        have := selOrMake_graph_cnt ch (g.readSlot ref) b g
        rw [heq] at this
        exact this
      · next cv g1 heq =>
        have := selOrMake_graph_cnt ch (g.readSlot ref) b g
        rw [heq] at this
        split
        · split
          · simpa [ARes.graph] using this
          · simpa [ARes.graph] using this
        · simpa [ARes.graph] using this

theorem attachPort_err_graph (g : Graph) (ref : SlotRef) (dir : ChanDir)
    (ch : Option ChanVal) (b : Int) (e : GoErr) (g' : Graph)
    (h : attachPort g ref dir ch b = .err e g') : g' = g := by
  unfold attachPort at h
  split at h
  · cases h; rfl
  · split at h
    · cases h; rfl
    · split at h
      · cases h
      · split at h
        · split at h
          · cases h
          · cases h
        · cases h

theorem attachPort_ok_isSome (g : Graph) (ref : SlotRef) (dir : ChanDir)
    (ch : Option ChanVal) (b : Int) (cv : ChanVal) (g' : Graph)
    (h : attachPort g ref dir ch b = .ok cv g') : cv.ref.isSome = true := by
  unfold attachPort at h
  split at h
  · cases h
  · split at h
    · cases h
    · split at h
      · cases h
      · next cv1 g1 heq =>
        split at h
        · split at h
          · cases h
            exact selOrMake_ok_isSome _ _ _ _ _ _ heq
          · cases h
        · cases h

theorem attachPort_some_ok (g : Graph) (ref : SlotRef) (dir : ChanDir)
    (cv0 : ChanVal) (b : Int) (cv : ChanVal) (g' : Graph)
    (hv : cv0.ref.isSome = true)
    (h : attachPort g ref dir (some cv0) b = .ok cv g') : cv = cv0 := by
  unfold attachPort at h
  rw [selOrMake_some_valid cv0 (g.readSlot ref) b g hv] at h
  split at h
  · cases h
  · split at h
    · cases h
    · split at h
      · next heq => cases heq
      · next cv1 g1 heq =>
        injection heq with e1 e2
        subst e1
        subst e2
        split at h
        · split at h
          · cases h; rfl
          · cases h
        · cases h

/-! ## `fanPhase` and `findExistingChan` lemmas -/

@[simp] theorem findChanIn_nil (addr : address) (dir : ChanDir) :
    findChanIn [] addr dir = none := rfl

theorem findChanIn_cons (conn : connection) (rest : List connection)
    (addr : address) (dir : ChanDir) :
    findChanIn (conn :: rest) addr dir =
      if (if dir = .send then conn.src else conn.tgt) = addr then
        some conn.channel
      else findChanIn rest addr dir := rfl

theorem fanPhase_empty (n : Graph) (sA rA : address)
    (h : n.connections = []) : fanPhase n sA rA = (none, true, n) := by
  unfold fanPhase Graph.findExistingChan
  rw [h]
  simp [validNonNil]

theorem fanPhase_fanout (n : Graph) (sA rA : address)
    (h : validNonNil (n.findExistingChan sA .send) = true) :
    fanPhase n sA rA = (n.findExistingChan sA .send, false, n) := by
  unfold fanPhase
  rw [h]
  simp

theorem fanPhase_fanin (n : Graph) (sA rA : address) (cv : ChanVal)
    (h1 : validNonNil (n.findExistingChan sA .send) = false)
    (h2 : n.findExistingChan rA .recv = some cv)
    (h3 : cv.ref.isSome = true) :
    fanPhase n sA rA = (some cv, false, n.incChanListenersCount cv) := by
  unfold fanPhase
  rw [h1, h2]
  simp [validNonNil, h3]

/-! ## `ConnectBuf` success inversion -/

theorem connectBuf_ok_inv (n : Graph) (sN sP rN rP : String) (b : Int)
    (g' : Graph) (h : ConnectBuf n sN sP rN rP b = .ok g') :
    ∃ sRef rRef ch isNew n1 ch2 g2 ch3 g3,
      n.getProcPort sN sP .send = .ok sRef ∧
      n.getProcPort rN rP .recv = .ok rRef ∧
      fanPhase n (parseAddress sN sP) (parseAddress rN rP) =
        (ch, isNew, n1) ∧
      attachPort n1 sRef .send ch b = .ok ch2 g2 ∧
      attachPort g2 rRef .recv (some ch2) b = .ok ch3 g3 ∧
      g' = addConn (if isNew = true then g3.incChanListenersCount ch2 else g3)
        ⟨parseAddress sN sP, parseAddress rN rP, ch2, b⟩ := by
  unfold ConnectBuf at h
  split at h
  · cases h
  · next sRef hgs =>
    split at h
    · cases h
    · next rRef hgr =>
      split at h
      next ch isNew n1 hf =>
        split at h
        · cases h
        · cases h
        · next ch2 g2 ha =>
          split at h
          · cases h
          · cases h
          · next ch3 g3 hb =>
            cases h
            exact ⟨sRef, rRef, ch, isNew, n1, ch2, g2, ch3, g3,
              hgs, hgr, hf, ha, hb, rfl⟩

/-! ## Further characterization lemmas -/

@[simp] theorem slotChanVal_ref (s : Slot) : (slotChanVal s).ref = s.ref := by
  unfold slotChanVal
  split <;> rfl

theorem lookupCnt_setCnt (t : List (Nat × Nat)) (p v : Nat) :
    lookupCnt (setCnt t p v) p = v := by
  induction t with
  | nil => simp [setCnt, lookupCnt]
  | cons kv rest ih =>
    by_cases hk : kv.1 = p
    · simp [setCnt, lookupCnt, hk]
    · simp [setCnt, lookupCnt, hk, ih]

theorem readSlot_of_procs_eq (g g' : Graph) (ref : SlotRef)
    (h : g'.procs = g.procs) : g'.readSlot ref = g.readSlot ref := by
  unfold Graph.readSlot
  rw [h]

theorem fanPhase_graph_procs (n : Graph) (sA rA : address) :
    ((fanPhase n sA rA).2.2).procs = n.procs := by
  unfold fanPhase
  split
  · rfl
  · split
    · split <;> simp
    · rfl

theorem fanPhase_graph_connections (n : Graph) (sA rA : address) :
    ((fanPhase n sA rA).2.2).connections = n.connections := by
  unfold fanPhase
  split
  · rfl
  · split
    · split <;> simp
    · rfl

theorem fanPhase_graph_chans (n : Graph) (sA rA : address) :
    ((fanPhase n sA rA).2.2).chans = n.chans := by
  unfold fanPhase
  split
  · rfl
  · split
    · split <;> simp
    · rfl

theorem fanPhase_not_found (n : Graph) (sA rA : address)
    (h1 : validNonNil (n.findExistingChan sA .send) = false)
    (h2 : validNonNil (n.findExistingChan rA .recv) = false) :
    fanPhase n sA rA = (n.findExistingChan rA .recv, true, n) := by
  unfold fanPhase
  rw [h1, h2]
  simp

theorem attachPort_wrongDir (g : Graph) (ref : SlotRef) (dir : ChanDir)
    (ch : Option ChanVal) (b : Int) (d : ChanDir) (e : Ty)
    (hft : (g.readSlot ref).ftype = .chanF d e)
    (hdir : d.bits &&& dir.bits = 0) :
    attachPort g ref dir ch b = .err (.wrongDir dir) g := by
  unfold attachPort validateChanDir
  rw [hft]
  simp [hdir]

theorem attachPort_some_ok_graph (g : Graph) (ref : SlotRef) (dir : ChanDir)
    (cv0 : ChanVal) (b : Int) (cv : ChanVal) (g' : Graph)
    (hv : cv0.ref.isSome = true)
    (h : attachPort g ref dir (some cv0) b = .ok cv g') :
    cv = cv0 ∧ g' = g.writeSlot ref cv0.ref := by
  unfold attachPort at h
  rw [selOrMake_some_valid cv0 (g.readSlot ref) b g hv] at h
  split at h
  · cases h
  · split at h
    · cases h
    · split at h
      · next heq => cases heq
      · next cv1 g1 heq =>
        injection heq with e1 e2
        subst e1
        subst e2
        split at h
        · split at h
          · cases h; exact ⟨rfl, rfl⟩
          · cases h
        · cases h

theorem attachPort_ok_inv (g : Graph) (ref : SlotRef) (dir : ChanDir)
    (ch : Option ChanVal) (b : Int) (cv : ChanVal) (g' : Graph)
    (h : attachPort g ref dir ch b = .ok cv g') :
    ∃ g1 d e, (g.readSlot ref).ftype = .chanF d e ∧
      selectOrMakeChan ch (g.readSlot ref) b g = .ok cv g1 ∧
      assignable cv.ty ⟨d, e⟩ = true ∧
      g' = g1.writeSlot ref cv.ref := by
  unfold attachPort at h
  split at h
  · cases h
  · split at h
    · cases h
    · split at h
      · cases h
      · next cv1 g1 heq =>
        split at h
        · next d e hft =>
          split at h
          · next hassign =>
            cases h
            exact ⟨g1, d, e, hft, heq, hassign, rfl⟩
          · cases h
        · cases h

theorem selOrMake_fresh_inv (ch : Option ChanVal) (s : Slot) (b : Int)
    (g g1 : Graph) (cv : ChanVal)
    (hch : validNonNil ch = false) (hs : s.ref = none)
    (h : selectOrMakeChan ch s b g = .ok cv g1) :
    cv = ⟨⟨.both, slotElem s⟩, some g.nextChanId⟩ ∧
      g1 = { g with chans := g.chans ++ [(g.nextChanId, b)],
                    nextChanId := g.nextChanId + 1 } ∧
      ¬ b < 0 := by
  unfold selectOrMakeChan at h
  rw [hch] at h
  rw [if_pos rfl] at h
  rw [slotChanVal_ref, hs] at h
  simp only [Option.isSome_none] at h
  rw [if_neg (by simp)] at h
  split at h
  · cases h
  · next hb =>
    cases h
    exact ⟨rfl, rfl, hb⟩

/-! ## Claim C9: empty or unclosed bracket suffixes parse like no suffix -/

/-- C9: for every process name `p`, `parseAddress p "In[]"` and
`parseAddress p "In["` each equal `parseAddress p "In"` — the port name is
truncated at the bracket and the key is empty — so an empty or unclosed
bracket suffix is indistinguishable from the bracket-free port text for
address equality, and hence for channel-reuse lookup through
`findExistingChan`. -/
theorem parseAddress_degenerate_bracket (p : String) :
    parseAddress p "In[]" = parseAddress p "In" ∧
    parseAddress p "In[" = parseAddress p "In" ∧
    (∀ (g : Graph) (dir : ChanDir),
      g.findExistingChan (parseAddress p "In[]") dir =
        g.findExistingChan (parseAddress p "In") dir ∧
      g.findExistingChan (parseAddress p "In[") dir =
        g.findExistingChan (parseAddress p "In") dir) := by
  refine ⟨rfl, rfl, fun g dir => ⟨rfl, rfl⟩⟩

/-! ## Claim C4: decrement reports "reached zero" exactly at zero -/

theorem decResults_replicate (c : ChanVal) :
    ∀ (N : Nat) (g : Graph),
      lookupCnt g.chanListenersCount (cvPtr c) = N → 1 ≤ N →
      decResults g c N = List.replicate (N - 1) false ++ [true] := by
  intro N
  induction N with
  | zero => intro g _ h1; omega
  | succ n ih =>
    intro g h _
    have hstep : g.decChanListenersCount c =
        (decide (n + 1 - 1 = 0),
          { g with chanListenersCount :=
              (setCnt g.chanListenersCount (cvPtr c) (n + 1 - 1)) }) := by
      unfold Graph.decChanListenersCount
      rw [h]
      simp
    cases n with
    | zero =>
      unfold decResults
      rw [hstep]
      simp [decResults]
    | succ m =>
      unfold decResults
      rw [hstep]
      have htail := ih ({ g with chanListenersCount :=
          (setCnt g.chanListenersCount (cvPtr c) (m + 1)) })
        (by simpa using lookupCnt_setCnt g.chanListenersCount (cvPtr c) (m + 1))
        (by omega)
      simp only [Nat.add_sub_cancel] at htail ⊢
      rw [htail]
      simp [List.replicate_succ]

/-- C4: `decChanListenersCount` returns `true` exactly when the stored
count for the channel is zero after the call; a call with the count
already at 0 returns `true` rather than failing; and for a channel whose
count is `N ≥ 1`, of `N` successive decrements exactly the `N`-th returns
`true` and each earlier one returns `false`. -/
theorem decChanListenersCount_spec :
    (∀ (g : Graph) (c : ChanVal),
      (g.decChanListenersCount c).1 = true ↔
        lookupCnt ((g.decChanListenersCount c).2).chanListenersCount
          (cvPtr c) = 0) ∧
    (∀ (g : Graph) (c : ChanVal),
      lookupCnt g.chanListenersCount (cvPtr c) = 0 →
      (g.decChanListenersCount c).1 = true) ∧
    (∀ (g : Graph) (c : ChanVal) (N : Nat),
      lookupCnt g.chanListenersCount (cvPtr c) = N → 1 ≤ N →
      decResults g c N = List.replicate (N - 1) false ++ [true]) := by
  refine ⟨fun g c => ?_, fun g c h => ?_, fun g c N h h1 =>
    decResults_replicate c N g h h1⟩
  · unfold Graph.decChanListenersCount
    split
    · next h0 => simp [h0]
    · next h0 => simp [lookupCnt_setCnt]
  · unfold Graph.decChanListenersCount
    rw [h]
    simp

/-! ## Claim C8: `getProcPort` resolution and error cases -/

/-- C8: `getProcPort` fails with a process-not-found error when the process
name is absent from the registry, with a not-settable error when the
registered value is not mutable, and with a port-not-found error when the
named member of a leaf process is absent; when the name resolves to a slot
of a settable leaf process it returns that slot's reference with no
direction check (the slot may have any field type); and when the process is
a nested sub-network it delegates to the network's exported out-port lookup
for the `send` direction and in-port lookup for the `recv` direction. -/
theorem getProcPort_spec :
    (∀ (g : Graph) (pn tn : String) (dir : ChanDir),
      alookup g.procs pn = none →
      g.getProcPort pn tn dir = .error (.procNotFound pn)) ∧
    (∀ (g : Graph) (pn tn : String) (dir : ChanDir) (p : Proc),
      alookup g.procs pn = some p → p.settable = false →
      g.getProcPort pn tn dir = .error (.procNotSettable pn)) ∧
    (∀ (g : Graph) (pn tn : String) (dir : ChanDir)
      (fs : List (String × Slot)),
      alookup g.procs pn = some (.leaf true fs) → alookup fs tn = none →
      g.getProcPort pn tn dir = .error (.portNotFound pn tn)) ∧
    (∀ (g : Graph) (pn tn : String) (dir : ChanDir)
      (fs : List (String × Slot)) (s : Slot),
      alookup g.procs pn = some (.leaf true fs) → alookup fs tn = some s →
      g.getProcPort pn tn dir = .ok ⟨pn, .fld, tn⟩) ∧
    (∀ (g : Graph) (pn tn : String) (os ips : List (String × Slot)),
      alookup g.procs pn = some (.net true os ips) →
      g.getProcPort pn tn .send =
        (match getOutPort os tn with
         | some _ => .ok ⟨pn, .outP, tn⟩
         | none => .error (.portNotFound pn tn)) ∧
      g.getProcPort pn tn .recv =
        (match getInPort ips tn with
         | some _ => .ok ⟨pn, .inP, tn⟩
         | none => .error (.portNotFound pn tn))) := by
  refine ⟨fun g pn tn dir h => ?_, fun g pn tn dir p h hs => ?_,
    fun g pn tn dir fs h hf => ?_, fun g pn tn dir fs s h hf => ?_,
    fun g pn tn os ips h => ⟨?_, ?_⟩⟩
  · unfold Graph.getProcPort
    rw [h]
  · unfold Graph.getProcPort
    rw [h]
    simp [hs]
  · unfold Graph.getProcPort
    rw [h]
    simp [Proc.settable, hf]
  · unfold Graph.getProcPort
    rw [h]
    simp [Proc.settable, hf]
  · unfold Graph.getProcPort
    rw [h]
    simp [Proc.settable]
  · unfold Graph.getProcPort
    rw [h]
    simp [Proc.settable]

/-- Rewriting form of `ConnectBuf` once both resolutions and the channel
discovery phase are known. -/
theorem connectBuf_core (n : Graph) (sN sP rN rP : String) (b : Int)
    (sRef rRef : SlotRef) (ch : Option ChanVal) (isNew : Bool) (n1 : Graph)
    (hgs : n.getProcPort sN sP .send = .ok sRef)
    (hgr : n.getProcPort rN rP .recv = .ok rRef)
    (hf : fanPhase n (parseAddress sN sP) (parseAddress rN rP) =
      (ch, isNew, n1)) :
    ConnectBuf n sN sP rN rP b =
      match attachPort n1 sRef .send ch b with
      | .err e g => .err g (.wrap sN sP e)
      | .panic k g => .panic g k
      | .ok ch2 g2 =>
        match attachPort g2 rRef .recv (some ch2) b with
        | .err e g => .err g (.wrap rN rP e)
        | .panic k g => .panic g k
        | .ok _ g3 =>
          .ok (addConn
            (if isNew = true then g3.incChanListenersCount ch2 else g3)
            ⟨parseAddress sN sP, parseAddress rN rP, ch2, b⟩) := by
  unfold ConnectBuf
  rw [hgs, hgr, hf]

/-! ## Claim C3: direction enforcement and failure atomicity -/

/-- C3: every error return of `ConnectBuf` leaves the Connection list
unchanged (in particular a sender-attach failure appends no Connection);
and when the resolved sender port slot is a receive-only channel field
(and the receiver resolves), the call returns the wrong-direction error
wrapped with the sender endpoint identity, with the Connection list
unchanged. -/
theorem connect_direction_and_atomicity :
    (∀ (g : Graph) (sN sP rN rP : String) (b : Int) (g' : Graph) (e : GoErr),
      ConnectBuf g sN sP rN rP b = .err g' e →
      g'.connections = g.connections) ∧
    (∀ (g : Graph) (sN sP rN rP : String) (b : Int) (sRef rRef : SlotRef)
      (e : Ty),
      g.getProcPort sN sP .send = .ok sRef →
      g.getProcPort rN rP .recv = .ok rRef →
      (g.readSlot sRef).ftype = .chanF .recv e →
      ∃ g', ConnectBuf g sN sP rN rP b =
          .err g' (.wrap sN sP (.wrongDir .send)) ∧
        g'.connections = g.connections) := by
  constructor
  · intro g sN sP rN rP b g' e h
    unfold ConnectBuf at h
    split at h
    · cases h; rfl
    · next sRef hgs =>
      split at h
      · cases h; rfl
      · next rRef hgr =>
        split at h
        next ch isNew n1 hf =>
          have hn1 : n1.connections = g.connections := by
            have := fanPhase_graph_connections g (parseAddress sN sP)
              (parseAddress rN rP)
            rw [hf] at this
            exact this
          split at h
          · next e0 gX ha =>
            cases h
            rw [attachPort_err_graph _ _ _ _ _ _ _ ha]
            exact hn1
          · cases h
          · next ch2 g2 ha =>
            have hg2 : g2.connections = g.connections := by
              have := attachPort_graph_connections n1 sRef .send ch b
              rw [ha] at this
              simpa [ARes.graph, hn1] using this
            split at h
            · next e0 gX hb =>
              cases h
              rw [attachPort_err_graph _ _ _ _ _ _ _ hb]
              exact hg2
            · cases h
            · cases h
  · intro g sN sP rN rP b sRef rRef e hgs hgr hft
    rcases hf : fanPhase g (parseAddress sN sP) (parseAddress rN rP) with
      ⟨ch, isNew, n1⟩
    have hn1p : n1.procs = g.procs := by
      have := fanPhase_graph_procs g (parseAddress sN sP) (parseAddress rN rP)
      rw [hf] at this
      exact this
    have hn1c : n1.connections = g.connections := by
      have := fanPhase_graph_connections g (parseAddress sN sP)
        (parseAddress rN rP)
      rw [hf] at this
      exact this
    have hatt : attachPort n1 sRef .send ch b = .err (.wrongDir .send) n1 :=
      attachPort_wrongDir n1 sRef .send ch b .recv e
        (by rw [readSlot_of_procs_eq g n1 sRef hn1p, hft]) (by decide)
    refine ⟨n1, ?_, hn1c⟩
    rw [connectBuf_core g sN sP rN rP b sRef rRef ch isNew n1 hgs hgr hf,
      hatt]

/-! ## Claim C10: fan-in increment survives a sender-attach failure -/

/-- C10: when fan-in reuse finds an existing valid channel and the
subsequent sender attach fails, `ConnectBuf` returns the error wrapped with
the sender identity, appends no Connection and assigns no port slot — yet
the found channel's reference count has already been incremented and is not
rolled back. -/
theorem connect_fanin_inc_survives_failure
    (g : Graph) (sN sP rN rP : String) (b : Int) (sRef rRef : SlotRef)
    (cv : ChanVal) (e0 : GoErr) (gE : Graph)
    (hgs : g.getProcPort sN sP .send = .ok sRef)
    (hgr : g.getProcPort rN rP .recv = .ok rRef)
    (hfo : validNonNil (g.findExistingChan (parseAddress sN sP) .send) =
      false)
    (hfi : g.findExistingChan (parseAddress rN rP) .recv = some cv)
    (hcv : cv.ref.isSome = true)
    (hAtt : attachPort (g.incChanListenersCount cv) sRef .send (some cv) b =
      .err e0 gE) :
    ConnectBuf g sN sP rN rP b =
      .err (g.incChanListenersCount cv) (.wrap sN sP e0) ∧
    (g.incChanListenersCount cv).connections = g.connections ∧
    (g.incChanListenersCount cv).procs = g.procs ∧
    lookupCnt (g.incChanListenersCount cv).chanListenersCount (cvPtr cv) =
      lookupCnt g.chanListenersCount (cvPtr cv) + 1 := by
  have hf := fanPhase_fanin g (parseAddress sN sP) (parseAddress rN rP) cv
    hfo hfi hcv
  obtain rfl : gE = g.incChanListenersCount cv :=
    attachPort_err_graph _ _ _ _ _ _ _ hAtt
  refine ⟨?_, rfl, rfl, ?_⟩
  · rw [connectBuf_core g sN sP rN rP b sRef rRef (some cv) false
      (g.incChanListenersCount cv) hgs hgr hf, hAtt]
  · simp [lookupCnt_setCnt]

/-! ## Claim C7: buffer size on allocation; reuse ignores the size -/

/-- C7: a `ConnectBuf` call that finds no reusable channel (and whose
sender slot holds none) allocates exactly one new channel, recorded in the
heap with capacity exactly the requested buffer size and with the sender
slot's element type; a call that reuses an existing fan-out channel adopts
that channel unchanged and allocates nothing, ignoring its own requested
buffer size. -/
theorem connectBuf_buffer_spec :
    (∀ (g : Graph) (sN sP rN rP : String) (b : Int) (g' : Graph)
      (sRef : SlotRef),
      g.getProcPort sN sP .send = .ok sRef →
      (g.readSlot sRef).ref = none →
      validNonNil (g.findExistingChan (parseAddress sN sP) .send) = false →
      validNonNil (g.findExistingChan (parseAddress rN rP) .recv) = false →
      ConnectBuf g sN sP rN rP b = .ok g' →
      ∃ c, g'.connections = g.connections ++ [c] ∧
        c.channel.ref = some g.nextChanId ∧
        c.channel.ty = ⟨.both, slotElem (g.readSlot sRef)⟩ ∧
        g'.chans = g.chans ++ [(g.nextChanId, b)]) ∧
    (∀ (g : Graph) (sN sP rN rP : String) (b : Int) (g' : Graph)
      (cv : ChanVal),
      g.findExistingChan (parseAddress sN sP) .send = some cv →
      cv.ref.isSome = true →
      ConnectBuf g sN sP rN rP b = .ok g' →
      ∃ c, g'.connections = g.connections ++ [c] ∧ c.channel = cv ∧
        g'.chans = g.chans) := by
  constructor
  · intro g sN sP rN rP b g' sRef hgs hslot hfo hfi h
    obtain ⟨sRef', rRef, ch, isNew, n1, ch2, g2, ch3, g3, hgs', hgr, hf, ha,
      hb, hg'⟩ := connectBuf_ok_inv _ _ _ _ _ _ _ h
    rw [hgs] at hgs'
    injection hgs' with e1
    subst e1
    rw [fanPhase_not_found g _ _ hfo hfi] at hf
    injection hf with f1 frest
    injection frest with f2 f3
    subst f1
    subst f2
    subst f3
    obtain ⟨g1, d, e, hft, hsel, hass, hg2⟩ :=
      attachPort_ok_inv _ _ _ _ _ _ _ ha
    obtain ⟨hc2, hg1, hbneg⟩ := selOrMake_fresh_inv _ _ _ _ _ _ hfi hslot hsel
    have hch2v : ch2.ref.isSome = true := by simp [hc2]
    obtain ⟨hc3, hg3⟩ := attachPort_some_ok_graph _ _ _ _ _ _ _ hch2v hb
    refine ⟨⟨parseAddress sN sP, parseAddress rN rP, ch2, b⟩, ?_, ?_, ?_, ?_⟩
    · rw [hg']
      simp [addConn, hg3, hg2, hg1]
    · rw [hc2]
    · rw [hc2]
    · rw [hg']
      simp [addConn, hg3, hg2, hg1]
  · intro g sN sP rN rP b g' cv hfo hcv h
    obtain ⟨sRef, rRef, ch, isNew, n1, ch2, g2, ch3, g3, hgs, hgr, hf, ha,
      hb, hg'⟩ := connectBuf_ok_inv _ _ _ _ _ _ _ h
    have hvn : validNonNil (g.findExistingChan (parseAddress sN sP) .send) =
        true := by
      rw [hfo]
      simpa [validNonNil] using hcv
    rw [fanPhase_fanout g _ _ hvn, hfo] at hf
    injection hf with f1 frest
    injection frest with f2 f3
    subst f2
    subst f3
    rw [← f1] at ha
    obtain ⟨hc2, hg2⟩ := attachPort_some_ok_graph _ _ _ _ _ _ _ hcv ha
    have hch2v : ch2.ref.isSome = true := by rw [hc2]; exact hcv
    obtain ⟨hc3, hg3⟩ := attachPort_some_ok_graph _ _ _ _ _ _ _ hch2v hb
    refine ⟨⟨parseAddress sN sP, parseAddress rN rP, ch2, b⟩, ?_, ?_, ?_⟩
    · rw [hg']
      simp [addConn, hg3, hg2]
    · exact hc2
    · rw [hg']
      simp [addConn, hg3, hg2]

/-! ## Claim C1: fan-out shares one channel, counted once -/

/-- C1: starting from a graph with no recorded connections and an empty
reference-count table, two successful `ConnectBuf` calls with the same
parsed sender address and distinct receivers record exactly two Connections
holding the identical channel; the second call changes the count table not
at all, and the shared channel's reference count is exactly 1 after both
calls. -/
theorem connect_fanout_shares_one_channel
    (g g1 g2 : Graph) (sN1 sP1 rN1 rP1 sN2 sP2 rN2 rP2 : String)
    (b1 b2 : Int)
    (hconn : g.connections = []) (hcnt : g.chanListenersCount = [])
    (hsame : parseAddress sN2 sP2 = parseAddress sN1 sP1)
    (hdist : parseAddress rN2 rP2 ≠ parseAddress rN1 rP1)
    (h1 : ConnectBuf g sN1 sP1 rN1 rP1 b1 = .ok g1)
    (h2 : ConnectBuf g1 sN2 sP2 rN2 rP2 b2 = .ok g2) :
    ∃ c1 c2, g2.connections = [c1, c2] ∧ c1.channel = c2.channel ∧
      g2.chanListenersCount = g1.chanListenersCount ∧
      lookupCnt g2.chanListenersCount (cvPtr c1.channel) = 1 := by
  obtain ⟨sRef, rRef, ch, isNew, n1, chA, gA, chB, gB, hgs, hgr, hf, ha, hb,
    hg1⟩ := connectBuf_ok_inv _ _ _ _ _ _ _ h1
  rw [fanPhase_empty g _ _ hconn] at hf
  injection hf with f1 frest
  injection frest with f2 f3
  subst f1
  subst f2
  subst f3
  have hchAv : chA.ref.isSome = true := attachPort_ok_isSome _ _ _ _ _ _ _ ha
  have hgAc : gA.connections = [] := by
    have := attachPort_graph_connections g sRef .send none b1
    rw [ha] at this
    simpa [ARes.graph, hconn] using this
  have hgAn : gA.chanListenersCount = [] := by
    have := attachPort_graph_cnt g sRef .send none b1
    rw [ha] at this
    simpa [ARes.graph, hcnt] using this
  obtain ⟨hcB, hgB⟩ := attachPort_some_ok_graph _ _ _ _ _ _ _ hchAv hb
  have hg1c : g1.connections =
      [⟨parseAddress sN1 sP1, parseAddress rN1 rP1, chA, b1⟩] := by
    rw [hg1]
    simp [addConn, hgB, hgAc]
  have hg1n : g1.chanListenersCount = [(cvPtr chA, 1)] := by
    rw [hg1]
    simp [addConn, hgB, hgAn, Graph.incChanListenersCount, setCnt, lookupCnt]
  obtain ⟨sRef2, rRef2, ch', isNew', n1', chA', gA', chB', gB', hgs2, hgr2,
    hf2, ha2, hb2, hg2⟩ := connectBuf_ok_inv _ _ _ _ _ _ _ h2
  have hfind : g1.findExistingChan (parseAddress sN2 sP2) .send = some chA :=
    by
    unfold Graph.findExistingChan
    rw [hg1c]
    simp [findChanIn, hsame]
  have hvn : validNonNil (g1.findExistingChan (parseAddress sN2 sP2) .send) =
      true := by
    rw [hfind]
    simpa [validNonNil] using hchAv
  rw [fanPhase_fanout g1 _ _ hvn, hfind] at hf2
  injection hf2 with f1' frest'
  injection frest' with f2' f3'
  subst f2'
  subst f3'
  rw [← f1'] at ha2
  obtain ⟨hcA', hgA'⟩ := attachPort_some_ok_graph _ _ _ _ _ _ _ hchAv ha2
  have hchA'v : chA'.ref.isSome = true := by rw [hcA']; exact hchAv
  obtain ⟨hcB', hgB'⟩ := attachPort_some_ok_graph _ _ _ _ _ _ _ hchA'v hb2
  refine ⟨⟨parseAddress sN1 sP1, parseAddress rN1 rP1, chA, b1⟩,
    ⟨parseAddress sN2 sP2, parseAddress rN2 rP2, chA', b2⟩, ?_, ?_, ?_, ?_⟩
  · rw [hg2]
    simp [addConn, hgB', hgA', hg1c]
  · exact hcA'.symm
  · rw [hg2]
    simp [addConn, hgB', hgA']
  · rw [hg2]
    simp [addConn, hgB', hgA', hg1n, lookupCnt]

/-! ## Claim C2: fan-in shares the channel and counts the new sender -/

/-- C2: starting from a graph with no recorded connections and an empty
reference-count table, a successful `ConnectBuf` followed by a second
successful call with a different parsed sender address but an equal parsed
receiver address makes the second Connection adopt the first call's
channel; the second call's only count-table change is the fan-in increment
of that channel, and the count is 2 after the second call. -/
theorem connect_fanin_shares_one_channel
    (g g1 g2 : Graph) (sN1 sP1 rN1 rP1 sN2 sP2 rN2 rP2 : String)
    (b1 b2 : Int)
    (hconn : g.connections = []) (hcnt : g.chanListenersCount = [])
    (hdiff : parseAddress sN2 sP2 ≠ parseAddress sN1 sP1)
    (hrecv : parseAddress rN2 rP2 = parseAddress rN1 rP1)
    (h1 : ConnectBuf g sN1 sP1 rN1 rP1 b1 = .ok g1)
    (h2 : ConnectBuf g1 sN2 sP2 rN2 rP2 b2 = .ok g2) :
    ∃ c1 c2, g2.connections = [c1, c2] ∧ c2.channel = c1.channel ∧
      g2.chanListenersCount =
        (g1.incChanListenersCount c1.channel).chanListenersCount ∧
      lookupCnt g2.chanListenersCount (cvPtr c1.channel) = 2 := by
  obtain ⟨sRef, rRef, ch, isNew, n1, chA, gA, chB, gB, hgs, hgr, hf, ha, hb,
    hg1⟩ := connectBuf_ok_inv _ _ _ _ _ _ _ h1
  rw [fanPhase_empty g _ _ hconn] at hf
  injection hf with f1 frest
  injection frest with f2 f3
  subst f1
  subst f2
  subst f3
  have hchAv : chA.ref.isSome = true := attachPort_ok_isSome _ _ _ _ _ _ _ ha
  have hgAc : gA.connections = [] := by
    have := attachPort_graph_connections g sRef .send none b1
    rw [ha] at this
    simpa [ARes.graph, hconn] using this
  have hgAn : gA.chanListenersCount = [] := by
    have := attachPort_graph_cnt g sRef .send none b1
    rw [ha] at this
    simpa [ARes.graph, hcnt] using this
  obtain ⟨hcB, hgB⟩ := attachPort_some_ok_graph _ _ _ _ _ _ _ hchAv hb
  have hg1c : g1.connections =
      [⟨parseAddress sN1 sP1, parseAddress rN1 rP1, chA, b1⟩] := by
    rw [hg1]
    simp [addConn, hgB, hgAc]
  have hg1n : g1.chanListenersCount = [(cvPtr chA, 1)] := by
    rw [hg1]
    simp [addConn, hgB, hgAn, Graph.incChanListenersCount, setCnt, lookupCnt]
  obtain ⟨sRef2, rRef2, ch', isNew', n1', chA', gA', chB', gB', hgs2, hgr2,
    hf2, ha2, hb2, hg2⟩ := connectBuf_ok_inv _ _ _ _ _ _ _ h2
  have hfo2 : g1.findExistingChan (parseAddress sN2 sP2) .send = none := by
    unfold Graph.findExistingChan
    rw [hg1c]
    simp [findChanIn, Ne.symm hdiff]
  have hfi2 : g1.findExistingChan (parseAddress rN2 rP2) .recv = some chA :=
    by
    unfold Graph.findExistingChan
    rw [hg1c]
    simp [findChanIn, hrecv]
  rw [fanPhase_fanin g1 _ _ chA (by rw [hfo2]; rfl) hfi2 hchAv] at hf2
  injection hf2 with f1' frest'
  injection frest' with f2' f3'
  subst f2'
  subst f3'
  rw [← f1'] at ha2
  obtain ⟨hcA', hgA'⟩ := attachPort_some_ok_graph _ _ _ _ _ _ _ hchAv ha2
  have hchA'v : chA'.ref.isSome = true := by rw [hcA']; exact hchAv
  obtain ⟨hcB', hgB'⟩ := attachPort_some_ok_graph _ _ _ _ _ _ _ hchA'v hb2
  refine ⟨⟨parseAddress sN1 sP1, parseAddress rN1 rP1, chA, b1⟩,
    ⟨parseAddress sN2 sP2, parseAddress rN2 rP2, chA', b2⟩, ?_, ?_, ?_, ?_⟩
  · rw [hg2]
    simp [addConn, hgB', hgA', hg1c]
  · exact hcA'
  · rw [hg2]
    simp [addConn, hgB', hgA']
  · rw [hg2]
    simp [addConn, hgB', hgA', hg1n, Graph.incChanListenersCount,
      lookupCnt, setCnt]

/-! ## Claim C6: the `parseAddress` bracket rule

The spec describes the split point as the *first* `[`; the code updates the
split point at *every* `[`, so with several bracket groups the last `[`
wins.  `breakLast` splits a list at the last occurrence of a character and
`parseAddressSpec` is the corrected closed-form description, proved
equivalent to the scanning loop. -/

theorem breakLast_append_singleton (c x : Char) (xs : List Char) :
    breakLast c (xs ++ [x]) =
      if x = c then some (xs, [])
      else (breakLast c xs).map (fun ab => (ab.1, ab.2 ++ [x])) := by
  induction xs with
  | nil => by_cases h : x = c <;> simp [breakLast, h]
  | cons y ys ih =>
    by_cases h : x = c
    · rw [if_pos h] at ih ⊢
      show breakLast c (y :: (ys ++ [x])) = _
      unfold breakLast
      rw [ih]
    · rw [if_neg h] at ih ⊢
      show breakLast c (y :: (ys ++ [x])) = _
      unfold breakLast
      rw [ih]
      cases hb : breakLast c ys with
      | none => simp [breakLast, hb]
      | some ab =>
        obtain ⟨a1, b1⟩ := ab
        simp [breakLast, hb]

theorem breakLast_eq_append (c : Char) (l a b : List Char)
    (h : breakLast c l = some (a, b)) : l = a ++ c :: b := by
  induction l generalizing a b with
  | nil => simp [breakLast] at h
  | cons x xs ih =>
    unfold breakLast at h
    cases hb : breakLast c xs with
    | some ab =>
      obtain ⟨a1, b1⟩ := ab
      rw [hb] at h
      simp only [Option.some.injEq, Prod.mk.injEq] at h
      obtain ⟨h1, h2⟩ := h
      subst h1
      subst h2
      have := ih a1 b1 hb
      rw [this]
      simp
    | none =>
      rw [hb] at h
      by_cases hx : x = c
      · rw [if_pos hx] at h
        simp only [Option.some.injEq, Prod.mk.injEq] at h
        obtain ⟨h1, h2⟩ := h
        subst h1
        subst h2
        subst hx
        simp
      · rw [if_neg hx] at h
        cases h

theorem kpSpec_append (pre : List Char) (r : Char) :
    kpSpec (pre ++ [r]) = if r = '[' then pre.length + 1 else kpSpec pre := by
  unfold kpSpec
  rw [breakLast_append_singleton]
  by_cases h : r = '['
  · simp [h]
  · rw [if_neg h, if_neg h]
    cases hb : breakLast '[' pre with
    | none => simp
    | some ab =>
      obtain ⟨a1, b1⟩ := ab
      simp

theorem pnSpec_append (full pre : List Char) (r : Char) :
    pnSpec full (pre ++ [r]) = if r = '[' then pre else pnSpec full pre := by
  unfold pnSpec
  rw [breakLast_append_singleton]
  by_cases h : r = '['
  · simp [h]
  · rw [if_neg h, if_neg h]
    cases hb : breakLast '[' pre with
    | none => simp
    | some ab =>
      obtain ⟨a1, b1⟩ := ab
      simp

theorem keySpec_append (pre : List Char) (r : Char) :
    keySpec (pre ++ [r]) =
      if r = ']' then
        (match breakLast '[' pre with
         | some (_, b) => b
         | none => pre)
      else keySpec pre := by
  unfold keySpec
  rw [breakLast_append_singleton]
  by_cases h : r = ']'
  · simp [h]
  · rw [if_neg h, if_neg h]
    cases hb : breakLast ']' pre with
    | none => simp
    | some ab =>
      obtain ⟨a1, b1⟩ := ab
      simp

theorem drop_kpSpec (pre : List Char) :
    pre.drop (kpSpec pre) =
      match breakLast '[' pre with
      | some (_, b) => b
      | none => pre := by
  unfold kpSpec
  cases hb : breakLast '[' pre with
  | none => simp
  | some ab =>
    obtain ⟨a1, b1⟩ := ab
    show pre.drop (a1.length + 1) = b1
    have hsplit := breakLast_eq_append '[' pre a1 b1 hb
    rw [hsplit]
    rw [show a1 ++ '[' :: b1 = (a1 ++ ['[']) ++ b1 by simp]
    rw [show a1.length + 1 = (a1 ++ ['[']).length by simp]
    exact List.drop_left _ _

theorem paGo_spec (full : List Char) :
    ∀ (rest pre : List Char), full = pre ++ rest →
      paGo full rest pre.length (kpSpec pre) (pnSpec full pre)
        (keySpec pre) = (pnSpec full full, keySpec full) := by
  intro rest
  induction rest with
  | nil =>
    intro pre h
    simp only [List.append_nil] at h
    subst h
    rfl
  | cons r rest' ih =>
    intro pre h
    have htake : full.take pre.length = pre := by
      rw [h]
      exact List.take_left _ _
    have h' : full = (pre ++ [r]) ++ rest' := by
      rw [h]
      simp
    have hrec := ih (pre ++ [r]) h'
    rw [List.length_append, List.length_singleton] at hrec
    show paGo full rest' (pre.length + 1) _ _ _ = _
    rw [htake]
    have e1 : (if r = '[' then pre.length + 1 else kpSpec pre) =
        kpSpec (pre ++ [r]) := by rw [kpSpec_append]
    have e2 : (if r = '[' then pre else pnSpec full pre) =
        pnSpec full (pre ++ [r]) := by rw [pnSpec_append]
    have e3 : (if r = ']' then pre.drop (kpSpec pre) else keySpec pre) =
        keySpec (pre ++ [r]) := by
      rw [keySpec_append, drop_kpSpec]
    rw [e1, e2, e3]
    exact hrec

theorem paGo_full (cs : List Char) :
    paGo cs cs 0 0 cs [] = (pnSpec cs cs, keySpec cs) :=
  paGo_spec cs cs [] rfl

theorem parseAddress_eq_spec (p t : String) :
    parseAddress p t = parseAddressSpec p t := by
  unfold parseAddress parseAddressSpec
  simp only [paGo_full]
  split
  · next hk =>
    have hk' : keySpec t.toList = [] := hk
    rw [hk']
    rfl
  · rfl

theorem breakLast_eq_none (c : Char) (l : List Char) (h : c ∉ l) :
    breakLast c l = none := by
  induction l with
  | nil => rfl
  | cons x xs ih =>
    simp only [List.mem_cons, not_or] at h
    unfold breakLast
    rw [ih h.2]
    simp [Ne.symm h.1]

/-- C6 counterexample: the claim's first-bracket rule predicts, for the
input `A[1][2]`, the port name `A` (everything before the first `[`) and
the key `1][2` (from the first-bracket split point to the last `]`); the
code instead yields port name `A[1]` and key `2`. -/
theorem parseAddress_first_bracket_counterexample :
    parseAddress "P" "A[1][2]" =
      { proc := "P", port := "A[1]", key := "2" } ∧
    parseAddress "P" "A[1][2]" ≠
      { proc := "P", port := "A", key := "1][2" } := by
  exact ⟨by decide, by decide⟩

/-- C6 amended: `parseAddress` returns `{proc, port unchanged, key = ""}`
when the port text contains no bracket; otherwise the port name is
everything before the *last* `[` and the key is the substring between the
`[` most recently preceding the last `]` (or the start of text) and that
`]` — never numerically interpreted; in particular
`parseAddress "P" "In" = {proc "P", port "In", key ""}`,
`parseAddress "P" "In[5]" = {port "In", key "5"}`, and
`parseAddress "P" "A[1][2]" = {port "A[1]", key "2"}`. -/
theorem parseAddress_last_bracket_spec :
    (∀ (p t : String), parseAddress p t = parseAddressSpec p t) ∧
    (∀ (p t : String), '[' ∉ t.toList → ']' ∉ t.toList →
      parseAddress p t = { proc := p, port := t, key := "" }) ∧
    (parseAddress "P" "In" = { proc := "P", port := "In", key := "" } ∧
      parseAddress "P" "In[5]" = { proc := "P", port := "In", key := "5" } ∧
      parseAddress "P" "A[1][2]" =
        { proc := "P", port := "A[1]", key := "2" }) := by
  refine ⟨parseAddress_eq_spec, ?_, by decide, by decide, by decide⟩
  intro p t h1 h2
  rw [parseAddress_eq_spec]
  unfold parseAddressSpec pnSpec keySpec
  rw [breakLast_eq_none '[' t.toList h1, breakLast_eq_none ']' t.toList h2]
  show ({ proc := p, port := t.toList.asString, key := "" } : address) =
    { proc := p, port := t, key := "" }
  rw [String.asString_toList]

/-! ## Claim C5: panic reachability and the no-panic condition

`reflect.Value.Set` panics when the assigned channel's type is not
assignable to the field's type, and `reflect.MakeChan` panics on a negative
size; the wiring core guards neither.  `GraphHomo` is the sufficient
condition under which no panic is reachable: every channel-typed field is
bidirectional with one common element type, and every recorded connection's
channel has that same type. -/

theorem alookup_all {α : Type} (P : α → Bool) (l : List (String × α))
    (k : String) (v : α) (hall : (l.all fun kv => P kv.2) = true)
    (h : alookup l k = some v) : P v = true := by
  induction l with
  | nil => simp [alookup] at h
  | cons kv rest ih =>
    simp only [List.all_cons, Bool.and_eq_true] at hall
    unfold alookup at h
    split at h
    · cases h
      exact hall.1
    · exact ih hall.2 h

theorem readSlot_homo (τ : Ty) (g : Graph) (ref : SlotRef)
    (h : GraphHomo τ g = true) : SlotBoth τ (g.readSlot ref) = true := by
  unfold GraphHomo at h
  simp only [Bool.and_eq_true] at h
  unfold Graph.readSlot
  cases hp : alookup g.procs ref.procName with
  | none => rfl
  | some p =>
    have hP : ProcBoth τ p = true := alookup_all _ _ _ _ h.1 hp
    cases hs : p.readSlot ref.sec ref.name with
    | none =>
      have hbind : ((some p).bind fun p => p.readSlot ref.sec ref.name) =
          none := by
        rw [Option.some_bind']
        exact hs
      rw [hbind]
      rfl
    | some s =>
      have hbind : ((some p).bind fun p => p.readSlot ref.sec ref.name) =
          some s := by
        rw [Option.some_bind']
        exact hs
      rw [hbind]
      show SlotBoth τ s = true
      cases p with
      | leaf st fs =>
        cases hsec : ref.sec <;> rw [hsec] at hs <;>
          simp only [Proc.readSlot] at hs
        · exact alookup_all _ _ _ _ (by simpa [ProcBoth] using hP) hs
        · cases hs
        · cases hs
      | net st os ips =>
        simp only [ProcBoth, Bool.and_eq_true] at hP
        cases hsec : ref.sec <;> rw [hsec] at hs <;>
          simp only [Proc.readSlot] at hs
        · cases hs
        · exact alookup_all _ _ _ _ hP.1 hs
        · exact alookup_all _ _ _ _ hP.2 hs

theorem findChanIn_homo (τ : Ty) (l : List connection) (addr : address)
    (dir : ChanDir) (cv : ChanVal)
    (hall : (l.all fun c => decide (c.channel.ty = ⟨.both, τ⟩)) = true)
    (h : findChanIn l addr dir = some cv) : cv.ty = ⟨.both, τ⟩ := by
  induction l with
  | nil => simp [findChanIn] at h
  | cons c rest ih =>
    simp only [List.all_cons, Bool.and_eq_true, decide_eq_true_eq] at hall
    unfold findChanIn at h
    by_cases hc : (if dir = ChanDir.send then c.src else c.tgt) = addr
    · rw [if_pos hc] at h
      cases h
      exact hall.1
    · rw [if_neg hc] at h
      exact ih hall.2 h

theorem findExistingChan_homo (τ : Ty) (n : Graph) (addr : address)
    (dir : ChanDir) (cv : ChanVal) (hg : GraphHomo τ n = true)
    (h : n.findExistingChan addr dir = some cv) : cv.ty = ⟨.both, τ⟩ := by
  unfold GraphHomo at hg
  simp only [Bool.and_eq_true] at hg
  exact findChanIn_homo τ n.connections addr dir cv hg.2 h

theorem alookup_setSlotRef (r : Option Nat) (l : List (String × Slot))
    (nm k : String) :
    (alookup (setSlotRef r l nm) k).map slotShape =
      (alookup l k).map slotShape := by
  induction l with
  | nil => rfl
  | cons kv rest ih =>
    unfold setSlotRef
    by_cases h1 : kv.1 = nm
    · rw [if_pos h1]
      show (if kv.1 = k then some { kv.2 with ref := r }
          else alookup rest k).map slotShape =
        (if kv.1 = k then some kv.2 else alookup rest k).map slotShape
      by_cases h2 : kv.1 = k
      · rw [if_pos h2, if_pos h2]
        rfl
      · rw [if_neg h2, if_neg h2]
    · rw [if_neg h1]
      show (if kv.1 = k then some kv.2
          else alookup (setSlotRef r rest nm) k).map slotShape =
        (if kv.1 = k then some kv.2 else alookup rest k).map slotShape
      by_cases h2 : kv.1 = k
      · rw [if_pos h2, if_pos h2]
      · rw [if_neg h2, if_neg h2]
        exact ih

theorem procWriteSlot_shape (p : Proc) (sec sec' : Sec) (nm nm' : String)
    (r : Option Nat) :
    ((p.writeSlot sec nm r).readSlot sec' nm').map slotShape =
      (p.readSlot sec' nm').map slotShape := by
  cases p <;> cases sec <;> cases sec' <;>
    simp [Proc.writeSlot, Proc.readSlot, alookup_setSlotRef]

theorem slotShape_getD (o1 o2 : Option Slot) (d : Slot)
    (h : o1.map slotShape = o2.map slotShape) :
    slotShape (o1.getD d) = slotShape (o2.getD d) := by
  cases o1 <;> cases o2 <;> simp_all

theorem alookup_map_update {α : Type} (f : α → α) (n : String)
    (l : List (String × α)) (k : String) :
    alookup (l.map fun kv => if kv.1 = n then (kv.1, f kv.2) else kv) k =
      if k = n then (alookup l k).map f else alookup l k := by
  induction l with
  | nil => by_cases h : k = n <;> simp [alookup, h]
  | cons kv rest ih =>
    simp only [List.map_cons]
    by_cases h1 : kv.1 = n
    · rw [if_pos h1]
      show (if kv.1 = k then some (f kv.2)
          else alookup (rest.map fun kv =>
            if kv.1 = n then (kv.1, f kv.2) else kv) k) = _
      by_cases h2 : kv.1 = k
      · rw [if_pos h2]
        have hkn : k = n := by rw [← h2]; exact h1
        rw [if_pos hkn]
        have hr : alookup (kv :: rest) k = some kv.2 := by
          show (if kv.1 = k then some kv.2 else alookup rest k) = _
          rw [if_pos h2]
        rw [hr]
        rfl
      · rw [if_neg h2, ih]
        have hr : alookup (kv :: rest) k = alookup rest k := by
          show (if kv.1 = k then some kv.2 else alookup rest k) = _
          rw [if_neg h2]
        rw [hr]
    · rw [if_neg h1]
      show (if kv.1 = k then some kv.2
          else alookup (rest.map fun kv =>
            if kv.1 = n then (kv.1, f kv.2) else kv) k) = _
      by_cases h2 : kv.1 = k
      · rw [if_pos h2]
        have hkn : ¬ k = n := by rw [← h2]; exact h1
        rw [if_neg hkn]
        show _ = (if kv.1 = k then some kv.2 else alookup rest k)
        rw [if_pos h2]
      · rw [if_neg h2, ih]
        have hr : alookup (kv :: rest) k = alookup rest k := by
          show (if kv.1 = k then some kv.2 else alookup rest k) = _
          rw [if_neg h2]
        rw [hr]

theorem writeSlot_shape (g : Graph) (ref ref' : SlotRef) (r : Option Nat) :
    slotShape ((g.writeSlot ref r).readSlot ref') =
      slotShape (g.readSlot ref') := by
  unfold Graph.readSlot Graph.writeSlot
  apply slotShape_getD
  rw [alookup_map_update (fun p => p.writeSlot ref.sec ref.name r)
    ref.procName g.procs ref'.procName]
  by_cases h : ref'.procName = ref.procName
  · rw [if_pos h]
    cases hp : alookup g.procs ref'.procName with
    | none => rfl
    | some p =>
      simp only [Option.map_some', Option.bind_some]
      exact procWriteSlot_shape p ref.sec ref'.sec ref.name ref'.name r
  · rw [if_neg h]

theorem SlotBoth_shape (τ : Ty) (s s' : Slot)
    (h : slotShape s' = slotShape s) : SlotBoth τ s' = SlotBoth τ s := by
  have hft : s'.ftype = s.ftype := congrArg Prod.fst h
  unfold SlotBoth
  rw [hft]

theorem selOrMake_homo (τ : Ty) (ch : Option ChanVal) (s : Slot) (b : Int)
    (g : Graph) (d : ChanDir) (e : Ty)
    (hft : s.ftype = .chanF d e) (hd : d = .both) (he : e = τ)
    (hch : ∀ cv, ch = some cv → cv.ref.isSome = true → cv.ty = ⟨.both, τ⟩)
    (hb : ¬ b < 0) :
    ∃ cv g1, selectOrMakeChan ch s b g = .ok cv g1 ∧ cv.ty = ⟨.both, τ⟩ ∧
      g1.procs = g.procs := by
  subst hd
  subst he
  unfold selectOrMakeChan
  by_cases hv : validNonNil ch = false
  · rw [if_pos hv]
    by_cases hsr : (slotChanVal s).ref.isSome = true
    · rw [if_pos hsr]
      refine ⟨slotChanVal s, g, rfl, ?_, rfl⟩
      unfold slotChanVal
      rw [hft]
    · rw [if_neg hsr, if_neg hb]
      refine ⟨_, _, rfl, ?_, rfl⟩
      unfold slotElem
      rw [hft]
  · rw [if_neg hv]
    cases ch with
    | none => simp [validNonNil] at hv
    | some cv0 =>
      have hvs : cv0.ref.isSome = true := by
        simp only [validNonNil] at hv
        simpa [Option.isSome_iff_ne_none] using hv
      exact ⟨cv0, g, rfl, hch cv0 rfl hvs, rfl⟩

theorem attachPort_homo (τ : Ty) (g : Graph) (ref : SlotRef) (dir : ChanDir)
    (ch : Option ChanVal) (b : Int)
    (hslot : SlotBoth τ (g.readSlot ref) = true)
    (hch : ∀ cv, ch = some cv → cv.ref.isSome = true → cv.ty = ⟨.both, τ⟩)
    (hb : ¬ b < 0) :
    (∃ e' g', attachPort g ref dir ch b = .err e' g') ∨
    (∃ cv g', attachPort g ref dir ch b = .ok cv g' ∧ cv.ty = ⟨.both, τ⟩ ∧
      (∀ ref', slotShape (g'.readSlot ref') = slotShape (g.readSlot ref'))) :=
  by
  cases hvd : validateChanDir (g.readSlot ref).ftype dir with
  | error e' =>
    refine Or.inl ⟨e', g, ?_⟩
    unfold attachPort
    rw [hvd]
  | ok u =>
    cases hft : (g.readSlot ref).ftype with
    | other =>
      rw [hft] at hvd
      simp [validateChanDir] at hvd
    | chanF d e =>
      have hde : d = ChanDir.both ∧ e = τ := by
        unfold SlotBoth at hslot
        rw [hft] at hslot
        simpa using hslot
      obtain ⟨hd, he⟩ := hde
      cases hcs : validateCanSet (g.readSlot ref) with
      | error e' =>
        refine Or.inl ⟨e', g, ?_⟩
        unfold attachPort
        rw [hvd, hcs]
      | ok u2 =>
        obtain ⟨cv, g1, hsel, hty, hprocs⟩ :=
          selOrMake_homo τ ch (g.readSlot ref) b g d e hft hd he hch hb
        refine Or.inr ⟨cv, g1.writeSlot ref cv.ref, ?_, hty, ?_⟩
        · unfold attachPort
          rw [hvd, hcs, hsel, hft]
          subst hd
          subst he
          simp [assignable, hty]
        · intro ref'
          rw [writeSlot_shape g1 ref ref' cv.ref,
            readSlot_of_procs_eq g g1 ref' hprocs]

theorem fanPhase_ch_cases (n : Graph) (sA rA : address) (ch : Option ChanVal)
    (isNew : Bool) (n1 : Graph)
    (hf : fanPhase n sA rA = (ch, isNew, n1)) :
    ch = n.findExistingChan sA .send ∨ ch = n.findExistingChan rA .recv := by
  unfold fanPhase at hf
  split at hf
  · left
    injection hf with h1 _
    exact h1.symm
  · split at hf
    · right
      injection hf with h1 _
      exact h1.symm
    · right
      injection hf with h1 _
      exact h1.symm

theorem connectBuf_panic_inv (n : Graph) (sN sP rN rP : String) (b : Int)
    (gP : Graph) (k : PanicKind)
    (h : ConnectBuf n sN sP rN rP b = .panic gP k) :
    ∃ sRef rRef ch isNew n1,
      n.getProcPort sN sP .send = .ok sRef ∧
      n.getProcPort rN rP .recv = .ok rRef ∧
      fanPhase n (parseAddress sN sP) (parseAddress rN rP) =
        (ch, isNew, n1) ∧
      (attachPort n1 sRef .send ch b = .panic k gP ∨
        ∃ ch2 g2, attachPort n1 sRef .send ch b = .ok ch2 g2 ∧
          attachPort g2 rRef .recv (some ch2) b = .panic k gP) := by
  unfold ConnectBuf at h
  split at h
  · cases h
  · next sRef hgs =>
    split at h
    · cases h
    · next rRef hgr =>
      split at h
      next ch isNew n1 hf =>
        split at h
        · cases h
        · next k1 gX ha =>
          cases h
          exact ⟨sRef, rRef, ch, isNew, n1, hgs, hgr, hf, Or.inl ha⟩
        · next ch2 g2 ha =>
          split at h
          · cases h
          · next k1 gX hbb =>
            cases h
            exact ⟨sRef, rRef, ch, isNew, n1, hgs, hgr, hf,
              Or.inr ⟨ch2, g2, ha, hbb⟩⟩
          · cases h

/-- C5 amended: under type homogeneity — every channel-typed port field of
the registry bidirectional with one common element type, every recorded
connection channel of that type — and a nonnegative buffer size, every
failure of `ConnectBuf` is a synchronously returned error: no panic is
reachable.  (Outside these conditions the attach step can panic, per the
counterexample, and no ChannelTypeMismatch error is ever returned.) -/
theorem connectBuf_no_panic (τ : Ty) (g : Graph) (sN sP rN rP : String)
    (b : Int) (hg : GraphHomo τ g = true) (hb : 0 ≤ b) :
    (ConnectBuf g sN sP rN rP b).isPanic = false := by
  have hb' : ¬ b < 0 := by omega
  cases hO : ConnectBuf g sN sP rN rP b with
  | ok g' => rfl
  | err g' e => rfl
  | panic gP k =>
    exfalso
    obtain ⟨sRef, rRef, ch, isNew, n1, hgs, hgr, hf, hrest⟩ :=
      connectBuf_panic_inv g sN sP rN rP b gP k hO
    have hn1p : n1.procs = g.procs := by
      have := fanPhase_graph_procs g (parseAddress sN sP)
        (parseAddress rN rP)
      rw [hf] at this
      exact this
    have hslotS : SlotBoth τ (n1.readSlot sRef) = true := by
      rw [readSlot_of_procs_eq g n1 sRef hn1p]
      exact readSlot_homo τ g sRef hg
    have hchh : ∀ cv, ch = some cv → cv.ref.isSome = true →
        cv.ty = ⟨.both, τ⟩ := by
      intro cv hcv _
      rcases fanPhase_ch_cases g _ _ ch isNew n1 hf with hcc | hcc
      · exact findExistingChan_homo τ g _ .send cv hg (by rw [← hcc, hcv])
      · exact findExistingChan_homo τ g _ .recv cv hg (by rw [← hcc, hcv])
    rcases hrest with hPan | ⟨ch2, g2, hok, hPan⟩
    · rcases attachPort_homo τ n1 sRef .send ch b hslotS hchh hb' with
        ⟨e', g', hA⟩ | ⟨cv, g', hA, _, _⟩
      · rw [hPan] at hA
        cases hA
      · rw [hPan] at hA
        cases hA
    · rcases attachPort_homo τ n1 sRef .send ch b hslotS hchh hb' with
        ⟨e', g', hA⟩ | ⟨cv, g', hA, hty, hshape⟩
      · rw [hok] at hA
        cases hA
      · rw [hok] at hA
        injection hA with h1 h2
        subst h1
        subst h2
        have hslotR : SlotBoth τ (g2.readSlot rRef) = true := by
          rw [SlotBoth_shape τ (n1.readSlot rRef) (g2.readSlot rRef)
            (hshape rRef)]
          rw [readSlot_of_procs_eq g n1 rRef hn1p]
          exact readSlot_homo τ g rRef hg
        have hchR : ∀ cv2, (some ch2 : Option ChanVal) = some cv2 →
            cv2.ref.isSome = true → cv2.ty = ⟨.both, τ⟩ := by
          intro cv2 hc _
          injection hc with hc
          rw [← hc]
          exact hty
        rcases attachPort_homo τ g2 rRef .recv (some ch2) b hslotR hchR hb'
          with ⟨e2, gx, hB⟩ | ⟨cv2, gx, hB, _, _⟩
        · rw [hPan] at hB
          cases hB
        · rw [hPan] at hB
          cases hB

/-- C5 counterexample: after a successful `A.Out→B.In` connect, the call
`A.Out→S.In` reuses the recorded `int` channel via fan-out and the attach
step reaches `reflect.Value.Set` with a channel not assignable to the
`str` port — an uncontrolled termination, not a returned error, so the
wiring core does have a panic path. -/
theorem connect_type_mismatch_panics :
    (ConnectBuf gMix "A" "Out" "B" "In" 0).isOk = true ∧
    (ConnectBuf ((ConnectBuf gMix "A" "Out" "B" "In" 0).graph)
        "A" "Out" "S" "In" 0).isPanic = true := by
  exact ⟨by decide, by decide⟩

/-! ## Concrete registries used to instantiate the theorems -/

/-! ## Witnesses: the theorems applied at concrete inputs -/

theorem connect_fanout_shares_one_channel_witness :
    ∃ c1 c2, gW2.connections = [c1, c2] ∧ c1.channel = c2.channel ∧
      gW2.chanListenersCount = gW1.chanListenersCount ∧
      lookupCnt gW2.chanListenersCount (cvPtr c1.channel) = 1 :=
  connect_fanout_shares_one_channel gW gW1 gW2 "A" "Out" "B" "In"
    "A" "Out" "C" "In" 10 0 (by decide) (by decide) (by decide) (by decide)
    (by decide) (by decide)

theorem connect_fanin_shares_one_channel_witness :
    ∃ c1 c2, gW3.connections = [c1, c2] ∧ c2.channel = c1.channel ∧
      gW3.chanListenersCount =
        (gW1.incChanListenersCount c1.channel).chanListenersCount ∧
      lookupCnt gW3.chanListenersCount (cvPtr c1.channel) = 2 :=
  connect_fanin_shares_one_channel gW gW1 gW3 "A" "Out" "B" "In"
    "D" "Out" "B" "In" 10 0 (by decide) (by decide) (by decide) (by decide)
    (by decide) (by decide)

theorem connect_direction_and_atomicity_witness :
    (gW1.incChanListenersCount cvW).connections = gW1.connections ∧
    (∃ g', ConnectBuf gW "R" "Out" "B" "In" 5 =
        .err g' (.wrap "R" "Out" (.wrongDir .send)) ∧
      g'.connections = gW.connections) :=
  ⟨connect_direction_and_atomicity.1 gW1 "R" "Out" "B" "In" 0
      (gW1.incChanListenersCount cvW) (.wrap "R" "Out" (.wrongDir .send))
      (by decide),
    connect_direction_and_atomicity.2 gW "R" "Out" "B" "In" 5
      ⟨"R", .fld, "Out"⟩ ⟨"B", .fld, "In"⟩ .int rfl rfl (by decide)⟩

theorem decChanListenersCount_spec_witness :
    ((gCnt.decChanListenersCount cvCnt).1 = true ↔
      lookupCnt ((gCnt.decChanListenersCount cvCnt).2).chanListenersCount
        (cvPtr cvCnt) = 0) ∧
    (gHomoW.decChanListenersCount cvCnt).1 = true ∧
    decResults gCnt cvCnt 3 = List.replicate 2 false ++ [true] :=
  ⟨decChanListenersCount_spec.1 gCnt cvCnt,
    decChanListenersCount_spec.2.1 gHomoW cvCnt (by decide),
    decChanListenersCount_spec.2.2 gCnt cvCnt 3 (by decide) (by decide)⟩

theorem connectBuf_no_panic_witness :
    (ConnectBuf gHomoW "A" "Out" "B" "In" 4).isPanic = false :=
  connectBuf_no_panic .int gHomoW "A" "Out" "B" "In" 4 (by decide) (by decide)

theorem parseAddress_last_bracket_spec_witness :
    parseAddress "Q" "Port" = { proc := "Q", port := "Port", key := "" } ∧
    parseAddress "Q" "A[x][y]" = parseAddressSpec "Q" "A[x][y]" :=
  ⟨parseAddress_last_bracket_spec.2.1 "Q" "Port" (by decide) (by decide),
    parseAddress_last_bracket_spec.1 "Q" "A[x][y]"⟩

theorem connectBuf_buffer_spec_witness :
    (∃ c, gW1.connections = gW.connections ++ [c] ∧
      c.channel.ref = some gW.nextChanId ∧
      c.channel.ty = ⟨.both, slotElem (gW.readSlot ⟨"A", .fld, "Out"⟩)⟩ ∧
      gW1.chans = gW.chans ++ [(gW.nextChanId, 10)]) ∧
    (∃ c, gW2.connections = gW1.connections ++ [c] ∧ c.channel = cvW ∧
      gW2.chans = gW1.chans) :=
  ⟨connectBuf_buffer_spec.1 gW "A" "Out" "B" "In" 10 gW1 ⟨"A", .fld, "Out"⟩
      rfl (by decide) (by decide) (by decide) (by decide),
    connectBuf_buffer_spec.2 gW1 "A" "Out" "C" "In" 0 gW2 cvW (by decide)
      (by decide) (by decide)⟩

theorem getProcPort_spec_witness :
    gW.getProcPort "X" "Out" .send = .error (.procNotFound "X") ∧
    gW.getProcPort "V" "Out" .send = .error (.procNotSettable "V") ∧
    gW.getProcPort "A" "Nope" .recv = .error (.portNotFound "A" "Nope") ∧
    gW.getProcPort "R" "Out" .send = .ok ⟨"R", .fld, "Out"⟩ ∧
    gW.getProcPort "N" "O" .send = .ok ⟨"N", .outP, "O"⟩ ∧
    gW.getProcPort "N" "I" .recv = .ok ⟨"N", .inP, "I"⟩ :=
  ⟨getProcPort_spec.1 gW "X" "Out" .send (by decide),
    getProcPort_spec.2.1 gW "V" "Out" .send (.leaf false []) (by decide)
      (by decide),
    getProcPort_spec.2.2.1 gW "A" "Nope" .recv
      [("Out", ⟨.chanF .both .int, true, none⟩)] (by decide) (by decide),
    getProcPort_spec.2.2.2.1 gW "R" "Out" .send
      [("Out", ⟨.chanF .recv .int, true, none⟩)]
      ⟨.chanF .recv .int, true, none⟩ (by decide) (by decide),
    ((getProcPort_spec.2.2.2.2 gW "N" "O"
      [("O", ⟨.chanF .both .int, true, none⟩)]
      [("I", ⟨.chanF .both .int, true, none⟩)] (by decide)).1).trans rfl,
    ((getProcPort_spec.2.2.2.2 gW "N" "I"
      [("O", ⟨.chanF .both .int, true, none⟩)]
      [("I", ⟨.chanF .both .int, true, none⟩)] (by decide)).2).trans rfl⟩

theorem connect_fanin_inc_survives_failure_witness :
    ConnectBuf gW1 "R" "Out" "B" "In" 0 =
      .err (gW1.incChanListenersCount cvW)
        (.wrap "R" "Out" (.wrongDir .send)) ∧
    (gW1.incChanListenersCount cvW).connections = gW1.connections ∧
    (gW1.incChanListenersCount cvW).procs = gW1.procs ∧
    lookupCnt (gW1.incChanListenersCount cvW).chanListenersCount
        (cvPtr cvW) =
      lookupCnt gW1.chanListenersCount (cvPtr cvW) + 1 :=
  connect_fanin_inc_survives_failure gW1 "R" "Out" "B" "In" 0
    ⟨"R", .fld, "Out"⟩ ⟨"B", .fld, "In"⟩ cvW (.wrongDir .send)
    (gW1.incChanListenersCount cvW) rfl rfl (by decide)
    (by decide) (by decide) (by decide)

end GoFlow
